import Mathlib

/-!
Verification development for the auto-trader repository.

JavaScript numbers are modelled as rationals; machine arithmetic on the
values exercised here is exact except where noted in doc comments.
JS Math.round rounds half toward positive infinity, which over the
rationals is fun x => Int.floor (x + 1/2).  Fallible results are Option.
-/

set_option maxHeartbeats 1000000

/-- Model of JS Math.round: round half toward positive infinity. -/
def jround (x : ℚ) : ℤ := ⌊x + 1/2⌋

/-- Rounding to two decimal places as in Math.round(x * 100) / 100. -/
def jround2 (x : ℚ) : ℚ := (jround (x * 100) : ℚ) / 100

/-- Rounding to three decimal places as in Math.round(x * 1000) / 1000. -/
def jround3 (x : ℚ) : ℚ := (jround (x * 1000) : ℚ) / 1000

/-- Model of Math.max over a list (callers only apply it to nonempty lists;
the JS value on an empty spread is negative infinity, unreachable here). -/
def jsMaxList (l : List ℚ) : ℚ :=
  match l with
  | [] => 0
  | x :: xs => xs.foldl max x

/-- Model of Math.min over a list (nonempty in every call site). -/
def jsMinList (l : List ℚ) : ℚ :=
  match l with
  | [] => 0
  | x :: xs => xs.foldl min x

/-- Model of a[a.length - 1] with 0 for the out-of-range (unreachable) case. -/
def jsLast (l : List ℚ) : ℚ := (l.getLast?).getD 0

/-- Model of a[a.length - 2] with 0 for the out-of-range (unreachable) case. -/
def jsPrev (l : List ℚ) : ℚ := (l.dropLast.getLast?).getD 0

/-- Model of the JS pattern (v || d) on an optional numeric field: an absent
field and a zero value both fall back to the default. -/
def orElse0 (v : Option ℚ) (d : ℚ) : ℚ :=
  match v with
  | none => d
  | some x => if x = 0 then d else x

/-- Model of the JS pattern (v || d) on an optional natural-number field. -/
def orElse0N (v : Option ℕ) (d : ℕ) : ℕ :=
  match v with
  | none => d
  | some x => if x = 0 then d else x

/-! ## Indicator library (indicators module)

Shallow embedding of the pure functions of the indicators module.
Price and candle series are lists ordered oldest to newest. -/

/-- Candle record with open, high, low, close and volume. -/
structure Candle where
  open_ : ℚ
  high : ℚ
  low : ℚ
  close : ℚ
  volume : ℚ
deriving Repr, DecidableEq

namespace Indicators

/-- SMA(prices, period): null below period candles, else the mean of the
last period prices.  prices.slice(-period) is modelled by drop. -/
def SMA (prices : List ℚ) (period : ℕ) : Option ℚ :=
  if prices.length < period then none
  else some (((prices.drop (prices.length - period)).foldl (· + ·) (0 : ℚ)) / period)

/-- Iteration step of the exponential moving average with factor k. -/
def emaStep (k : ℚ) (ema p : ℚ) : ℚ := p * k + ema * (1 - k)

/-- EMA(prices, period): seeded with the SMA of the first period prices,
then folded over the remaining prices.  The seed SMA call is on a slice of
exactly period elements, so its guard never fires; it is inlined here. -/
def EMA (prices : List ℚ) (period : ℕ) : Option ℚ :=
  if prices.length < period then none
  else
    some ((prices.drop period).foldl (emaStep (2 / (period + 1)))
      (((prices.take period).foldl (· + ·) (0 : ℚ)) / period))

/-- EMAArray(prices, period): the running EMA series, empty below period
prices.  scanl reproduces the push-per-iteration loop of the source. -/
def EMAArray (prices : List ℚ) (period : ℕ) : List ℚ :=
  if prices.length < period then []
  else
    (prices.drop period).scanl (emaStep (2 / (period + 1)))
      (((prices.take period).foldl (· + ·) (0 : ℚ)) / period)

/-- Result record of the MACD indicator. -/
structure MACDResult where
  macd : Option ℚ
  signal : Option ℚ
  histogram : Option ℚ
  trend : String
  crossover : Option String
deriving Repr, DecidableEq

/-- Insufficient-data result of MACD. -/
def MACDResult.empty : MACDResult :=
  { macd := none, signal := none, histogram := none
    trend := "NEUTRAL", crossover := none }

/-- MACD(prices, fast, slow, signalPeriod).  The source indexes
ema12[i + offset] with offset = slow - fast; for fast <= slow (all call
sites) this equals zipping ema26 against ema12 dropped by offset. -/
def MACD (prices : List ℚ) (fastPeriod slowPeriod signalPeriod : ℕ) :
    MACDResult :=
  if prices.length < slowPeriod + signalPeriod then MACDResult.empty
  else
    let ema12 := EMAArray prices fastPeriod
    let ema26 := EMAArray prices slowPeriod
    let offset := slowPeriod - fastPeriod
    let macdLine := List.zipWith (· - ·) (ema12.drop offset) ema26
    let signalLine := EMAArray macdLine signalPeriod
    let macd := jsLast macdLine
    let signal := jsLast signalLine
    let histogram := macd - signal
    let prevMacd := jsPrev macdLine
    let prevSignal := jsPrev signalLine
    let tc : String × Option String :=
      if prevMacd ≤ prevSignal ∧ macd > signal then
        ("BULLISH", some "GOLDEN_CROSS")
      else if prevMacd ≥ prevSignal ∧ macd < signal then
        ("BEARISH", some "DEAD_CROSS")
      else if macd > signal ∧ macd > 0 then ("BULLISH", none)
      else if macd < signal ∧ macd < 0 then ("BEARISH", none)
      else ("NEUTRAL", none)
    { macd := some (jround2 macd), signal := some (jround2 signal)
      histogram := some (jround2 histogram), trend := tc.1, crossover := tc.2 }

/-- Price changes prices[i] - prices[i-1], the changes array of RSI. -/
def priceChanges (prices : List ℚ) : List ℚ :=
  List.zipWith (· - ·) prices.tail prices

/-- Accumulation of (gains, losses) over the recent changes: a positive
change adds to gains, otherwise its absolute value adds to losses. -/
def gainsLosses (changes : List ℚ) : ℚ × ℚ :=
  changes.foldl (fun gl c => if c > 0 then (gl.1 + c, gl.2) else (gl.1, gl.2 + |c|))
    (0, 0)

/-- RSI(prices, period) of the indicators module: null below period + 1
prices; 100 when the window has no losses; otherwise
100 - 100 / (1 + rs) rounded to two decimals. -/
def RSI (prices : List ℚ) (period : ℕ) : Option ℚ :=
  if prices.length < period + 1 then none
  else
    let changes := priceChanges prices
    let recentChanges := changes.drop (changes.length - period)
    let gl := gainsLosses recentChanges
    let avgGain := gl.1 / period
    let avgLoss := gl.2 / period
    if avgLoss = 0 then some 100
    else some (jround2 (100 - 100 / (1 + avgGain / avgLoss)))

/-- TrueRange(high, low, prevClose). -/
def TrueRange (high low prevClose : ℚ) : ℚ :=
  max (high - low) (max |high - prevClose| |low - prevClose|)

/-- Result record of ATR. -/
structure ATRResult where
  atr : Option ℤ
  atrPercent : Option ℚ
deriving Repr, DecidableEq

/-- ATR(candles, period): null fields below period + 1 candles, else the
mean of the last period true ranges, rounded (atr) and as a percentage of
the final close (atrPercent). -/
def ATR (candles : List Candle) (period : ℕ) : ATRResult :=
  if candles.length < period + 1 then { atr := none, atrPercent := none }
  else
    let trArray := List.zipWith
      (fun cur prev => TrueRange cur.high cur.low prev.close)
      candles.tail candles
    let atr := ((trArray.drop (trArray.length - period)).foldl (· + ·) (0 : ℚ)) / period
    let currentPrice := ((candles.getLast?).map Candle.close).getD 0
    let atrPercent := atr / currentPrice * 100
    { atr := some (jround atr), atrPercent := some (jround2 atrPercent) }

/-- Result record of the stochastic oscillator. -/
structure StochResult where
  k : Option ℚ
  d : Option ℚ
  signal : String
  crossover : Option String
deriving Repr, DecidableEq

/-- Insufficient-data result of Stochastic. -/
def StochResult.empty : StochResult :=
  { k := none, d := none, signal := "NEUTRAL", crossover := none }

/-- Raw percent-K value of one kPeriod-candle window. -/
def stochK (slice : List Candle) : ℚ :=
  let highest := jsMaxList (slice.map Candle.high)
  let lowest := jsMinList (slice.map Candle.low)
  let currentClose := ((slice.getLast?).map Candle.close).getD 0
  if highest = lowest then 50 else (currentClose - lowest) / (highest - lowest) * 100

/-- Stochastic(candles, kPeriod, dPeriod): null below kPeriod + dPeriod
candles, else percent-K/percent-D with zone signal and crossover. -/
def Stochastic (candles : List Candle) (kPeriod dPeriod : ℕ) : StochResult :=
  if candles.length < kPeriod + dPeriod then StochResult.empty
  else
    let kValues := (List.range (candles.length - (kPeriod - 1))).map
      (fun j => stochK ((candles.drop j).take kPeriod))
    let dValues := (List.range (kValues.length - (dPeriod - 1))).map
      (fun j => (((kValues.drop j).take dPeriod).foldl (· + ·) (0 : ℚ)) / dPeriod)
    let k := jsLast kValues
    let d := jsLast dValues
    let prevK := jsPrev kValues
    let prevDv := jsPrev dValues
    let signal := if k < 20 then "OVERSOLD"
      else if k > 80 then "OVERBOUGHT" else "NEUTRAL"
    let crossover : Option String :=
      if prevK ≤ prevDv ∧ k > d ∧ k < 30 then some "BULLISH_CROSS"
      else if prevK ≥ prevDv ∧ k < d ∧ k > 70 then some "BEARISH_CROSS"
      else none
    { k := some (jround2 k), d := some (jround2 d)
      signal := signal, crossover := crossover }

/-- Result record of Williams percent-R. -/
structure WilliamsRResult where
  value : Option ℚ
  signal : String
deriving Repr, DecidableEq

/-- WilliamsR(candles, period): null below period candles, else
(highest - close) / (highest - lowest) * (-100) with zone signal. -/
def WilliamsR (candles : List Candle) (period : ℕ) : WilliamsRResult :=
  if candles.length < period then { value := none, signal := "NEUTRAL" }
  else
    let slice := candles.drop (candles.length - period)
    let highest := jsMaxList (slice.map Candle.high)
    let lowest := jsMinList (slice.map Candle.low)
    let currentClose := ((candles.getLast?).map Candle.close).getD 0
    let r := if highest = lowest then -50
      else (highest - currentClose) / (highest - lowest) * (-100)
    let signal := if r < -80 then "OVERSOLD"
      else if r > -20 then "OVERBOUGHT" else "NEUTRAL"
    { value := some (jround2 r), signal := signal }

/-- Result record of VWAP. -/
structure VWAPResult where
  vwap : Option ℤ
  ratio : Option ℚ
  signal : String
deriving Repr, DecidableEq

/-- VWAP(candles, period): null below period candles, else the
volume-weighted average of typical prices over the last period candles.
A zero vwap value is itself falsy in the source (vwap ? round : null). -/
def VWAP (candles : List Candle) (period : ℕ) : VWAPResult :=
  if candles.length < period then { vwap := none, ratio := none, signal := "NEUTRAL" }
  else
    let slice := candles.drop (candles.length - period)
    let sumPV := slice.foldl
      (fun s c => s + (c.high + c.low + c.close) / 3 * c.volume) 0
    let sumV := slice.foldl (fun s c => s + c.volume) 0
    let vwap : Option ℚ := if sumV = 0 then none else some (sumPV / sumV)
    let currentPrice := ((candles.getLast?).map Candle.close).getD 0
    let ratio := vwap.map (fun v => (currentPrice / v - 1) * 100)
    let signal :=
      match ratio with
      | none => "NEUTRAL"
      | some r =>
        if r < -3 then "UNDERVALUED"
        else if r < 0 then "BELOW_VWAP"
        else if r > 3 then "OVERVALUED"
        else "ABOVE_VWAP"
    { vwap := vwap.bind (fun v => if v = 0 then none else some (jround v))
      ratio := ratio.map jround2, signal := signal }

end Indicators

/-! ## Technical analyzer (calculateMA, calculateRSI)

The technical-analyzer module duplicates the moving average and the RSI
with the same arithmetic; calculateRSI defaults period to the configured
rsiPeriod (14). -/

namespace TechnicalAnalyzer

/-- calculateMA(prices, period): null below period prices, else the mean
of the last period prices. -/
def calculateMA (prices : List ℚ) (period : ℕ) : Option ℚ :=
  if prices.length < period then none
  else some (((prices.drop (prices.length - period)).foldl (· + ·) (0 : ℚ)) / period)

/-- calculateRSI(prices, period): identical arithmetic to the indicators
module RSI. -/
def calculateRSI (prices : List ℚ) (period : ℕ) : Option ℚ :=
  if prices.length < period + 1 then none
  else
    let changes := Indicators.priceChanges prices
    let recentChanges := changes.drop (changes.length - period)
    let gl := Indicators.gainsLosses recentChanges
    let avgGain := gl.1 / period
    let avgLoss := gl.2 / period
    if avgLoss = 0 then some 100
    else some (jround2 (100 - 100 / (1 + avgGain / avgLoss)))

end TechnicalAnalyzer

/-! ## Exit manager (createPartialSellPlan, calculateTrailingStop)

Holdings carry the fields the exit manager and the trade executor read.
Timestamps are rationals (milliseconds since the epoch). -/

/-- Holding record owned by the Portfolio. -/
structure Holding where
  code : String
  name : String
  quantity : ℤ
  avgPrice : ℚ
  buyDate : Option ℚ
  orderNo : Option String
  highestPrice : Option ℚ
  partialSells : Option (List String)
deriving Repr, DecidableEq

/-- Partial-sell ladder rung of the configuration. -/
structure SellLevel where
  profitRate : ℚ
  sellRatio : ℚ
deriving Repr, DecidableEq

/-- Trailing-stop configuration. -/
structure TrailingConfig where
  activationProfit : ℚ
  trailingPercent : ℚ
  minProfit : ℚ
deriving Repr, DecidableEq

/-- Exit-strategy configuration; absent fields take the source defaults
through the (x || default) pattern (an array and an object literal are
truthy in JS even when empty, so Option.getD models it exactly). -/
structure ExitConfig where
  partialSellLevels : Option (List SellLevel)
  trailingStop : Option TrailingConfig
deriving Repr, DecidableEq

/-- Default ladder of the source: 30 percent at +5, 30 at +10, 40 at +15. -/
def defaultPartialSellLevels : List SellLevel :=
  [⟨5/100, 3/10⟩, ⟨10/100, 3/10⟩, ⟨15/100, 4/10⟩]

/-- Default trailing-stop configuration of the source. -/
def defaultTrailingConfig : TrailingConfig :=
  ⟨5/100, 3/100, 2/100⟩

namespace ExitManager

/-- Level id string of a rung: L followed by the rounded percent. -/
def levelIdOf (level : SellLevel) : String :=
  "L" ++ toString (jround (level.profitRate * 100))

/-- Display entry of one ladder rung inside the plan. -/
structure PlanLevel where
  id : String
  profitRate : ℚ
  targetPrice : ℤ
  sellRatio : ℚ
  quantity : ℤ
  triggered : Bool
  alreadySold : Bool
deriving Repr, DecidableEq

/-- Next partial-sell action surfaced by the plan. -/
structure NextSell where
  levelId : String
  quantity : ℤ
  targetPrice : ℤ
  profitRate : ℚ
  reason : String
deriving Repr, DecidableEq

/-- Partial-sell plan returned by createPartialSellPlan. -/
structure PartialSellPlan where
  holding : Holding
  currentPrice : ℚ
  profitRate : ℚ
  levels : List PlanLevel
  nextSell : Option NextSell
deriving Repr, DecidableEq

/-- Fold state of the createPartialSellPlan loop: accumulated display
levels (reversed), the nextSell slot, and the remaining ratio the source
tracks (it never reads it back, but it is part of the loop). -/
structure PlanAcc where
  levels : List PlanLevel
  nextSell : Option NextSell
  remainingRatio : ℚ

/-- Loop body of createPartialSellPlan for one ladder rung. -/
def planStep (soldLevels : List String) (avgPrice : ℚ) (totalQuantity : ℤ)
    (profitRate : ℚ) (acc : PlanAcc) (level : SellLevel) : PlanAcc :=
  let levelId := levelIdOf level
  let alreadySold := soldLevels.contains levelId
  let remainingRatio :=
    if alreadySold then acc.remainingRatio else acc.remainingRatio - level.sellRatio
  let targetPrice := jround (avgPrice * (1 + level.profitRate))
  let quantity := ⌊(totalQuantity : ℚ) * level.sellRatio⌋
  let planLevel : PlanLevel :=
    { id := levelId, profitRate := level.profitRate * 100
      targetPrice := targetPrice, sellRatio := level.sellRatio
      quantity := quantity, triggered := decide (level.profitRate ≤ profitRate)
      alreadySold := alreadySold }
  let nextSell :=
    if ¬alreadySold ∧ level.profitRate ≤ profitRate ∧ acc.nextSell = none then
      some { levelId := levelId, quantity := max 1 quantity
             targetPrice := targetPrice, profitRate := level.profitRate * 100
             reason := "분할 매도 " ++ levelId ++ " (+" ++
               toString (level.profitRate * 100) ++ "% 도달)" }
    else acc.nextSell
  { levels := acc.levels ++ [planLevel], nextSell := nextSell
    remainingRatio := remainingRatio }

/-- createPartialSellPlan(holding, currentPrice): walks the configured
ladder in order, marking due and already-sold rungs and surfacing the
first due-but-unsold rung as nextSell with quantity
max(1, floor(quantity * sellRatio)). -/
def createPartialSellPlan (exitCfg : ExitConfig) (holding : Holding)
    (currentPrice : ℚ) : PartialSellPlan :=
  let avgPrice := holding.avgPrice
  let totalQuantity := holding.quantity
  let profitRate := (currentPrice - avgPrice) / avgPrice
  let partialSellLevels := exitCfg.partialSellLevels.getD defaultPartialSellLevels
  let soldLevels := holding.partialSells.getD []
  let acc := partialSellLevels.foldl
    (planStep soldLevels avgPrice totalQuantity profitRate)
    { levels := [], nextSell := none, remainingRatio := 1 }
  { holding := holding, currentPrice := currentPrice
    profitRate := (jround (profitRate * 10000) : ℚ) / 100
    levels := acc.levels, nextSell := acc.nextSell }

/-- Result record of calculateTrailingStop. -/
structure TrailingResult where
  isActive : Bool
  isTriggered : Bool
  currentPrice : ℚ
  avgPrice : ℚ
  profitRate : ℚ
  highestPrice : ℚ
  trailingStopPrice : ℤ
  minProfitPrice : ℤ
  effectiveStopPrice : ℤ
  reason : Option String
deriving Repr, DecidableEq

/-- calculateTrailingStop(holding, currentPrice): high-water price with
falsy fallback max(currentPrice, avgPrice), stop price
max(round(high * (1 - trailingPercent)), round(avgPrice * (1 + minProfit))),
active once profitRate reaches activationProfit, triggered when active and
currentPrice is at or below the stop. -/
def calculateTrailingStop (exitCfg : ExitConfig) (holding : Holding)
    (currentPrice : ℚ) : TrailingResult :=
  let avgPrice := holding.avgPrice
  let profitRate := (currentPrice - avgPrice) / avgPrice
  let trailingConfig := exitCfg.trailingStop.getD defaultTrailingConfig
  let highestPrice := orElse0 holding.highestPrice (max currentPrice avgPrice)
  let newHighest := max highestPrice currentPrice
  let trailingStopPrice := jround (newHighest * (1 - trailingConfig.trailingPercent))
  let minProfitPrice := jround (avgPrice * (1 + trailingConfig.minProfit))
  let effectiveStopPrice := max trailingStopPrice minProfitPrice
  let isActive := decide (trailingConfig.activationProfit ≤ profitRate)
  let isTriggered := isActive && decide (currentPrice ≤ (effectiveStopPrice : ℚ))
  { isActive := isActive, isTriggered := isTriggered
    currentPrice := currentPrice, avgPrice := avgPrice
    profitRate := (jround (profitRate * 10000) : ℚ) / 100
    highestPrice := newHighest, trailingStopPrice := trailingStopPrice
    minProfitPrice := minProfitPrice, effectiveStopPrice := effectiveStopPrice
    reason := if isTriggered then
        some ("트레일링 스톱 (고점 " ++ toString newHighest ++ "원 대비 " ++
          toString (trailingConfig.trailingPercent * 100) ++ "% 하락)")
      else none }

end ExitManager

/-! ## Circuit breaker (createCircuitBreaker)

Per-key state machine over milliseconds-since-epoch timestamps.  The Map
of the source initializes a fresh entry on first access, modelled by a
total function with the initial state as default. -/

/-- Circuit-breaker options with the source defaults 5 / 30000 / 1. -/
structure BreakerConfig where
  failureThreshold : ℕ
  cooldownMs : ℕ
  halfOpenMax : ℕ
deriving Repr, DecidableEq

/-- Per-key mutable record: consecutive failures, the open-until
timestamp and the count of half-open trials granted. -/
structure BreakerEntry where
  fails : ℕ
  openUntil : ℕ
  halfOpenTrials : ℕ
deriving Repr, DecidableEq

/-- Initial entry created by get(key). -/
def BreakerEntry.init : BreakerEntry := ⟨0, 0, 0⟩

/-- Breaker state classification returned by getState. -/
inductive BreakerPhase where
  | CLOSED
  | OPEN
  | HALF_OPEN
deriving Repr, DecidableEq

namespace CircuitBreaker

/-- canRequest on one entry at time now: false while openUntil is in the
future; in the half-open window (openUntil nonzero and elapsed) at most
halfOpenMax trials are granted, incrementing the trial count. -/
def canRequest (cfg : BreakerConfig) (now : ℕ) (s : BreakerEntry) :
    Bool × BreakerEntry :=
  if now < s.openUntil then (false, s)
  else if s.openUntil ≠ 0 then
    if cfg.halfOpenMax ≤ s.halfOpenTrials then (false, s)
    else (true, { s with halfOpenTrials := s.halfOpenTrials + 1 })
  else (true, s)

/-- success(key): full reset to the closed state. -/
def success (_s : BreakerEntry) : BreakerEntry := BreakerEntry.init

/-- failure(key) at time now: one more consecutive failure; at or above
the threshold the breaker opens until now + cooldownMs. -/
def failure (cfg : BreakerConfig) (now : ℕ) (s : BreakerEntry) : BreakerEntry :=
  let fails := s.fails + 1
  if cfg.failureThreshold ≤ fails then
    { fails := fails, openUntil := now + cfg.cooldownMs, halfOpenTrials := 0 }
  else { s with fails := fails }

/-- getState(key) at time now. -/
def getState (cfg : BreakerConfig) (now : ℕ) (s : BreakerEntry) : BreakerPhase :=
  if s.fails < cfg.failureThreshold then .CLOSED
  else if now < s.openUntil then .OPEN
  else .HALF_OPEN

/-- Consecutive failure(key) calls at the listed times. -/
def applyFailures (cfg : BreakerConfig) (ts : List ℕ) (s : BreakerEntry) :
    BreakerEntry :=
  ts.foldl (fun s t => failure cfg t s) s

/-- Repeated canRequest calls at a fixed time, threading the entry. -/
def canRequestIter (cfg : BreakerConfig) (now : ℕ) : ℕ → BreakerEntry → BreakerEntry
  | 0, s => s
  | n + 1, s => canRequestIter cfg now n (canRequest cfg now s).2

/-- Number of granted requests among n successive canRequest calls at a
fixed time. -/
def grants (cfg : BreakerConfig) (now : ℕ) : ℕ → BreakerEntry → ℕ
  | 0, _ => 0
  | n + 1, s =>
    let r := canRequest cfg now s
    (if r.1 then 1 else 0) + grants cfg now n r.2

end CircuitBreaker

/-! ## Trade executor (cooldown gate, guards, execution, persistence)

Configuration mirrors config.js: the safety block is behind optional
chaining in the source, and several numeric fields fall back through the
(x || default) pattern, modelled by Option plus orElse0. -/

/-- Safety block of the trading configuration. -/
structure SafetyConfig where
  enabled : Bool
  cooldownHours : Option ℚ
  minHoldingHours : Option ℚ
  maxPerSector : Option ℕ
  maxBuyPerRun : Option ℕ
deriving Repr, DecidableEq

/-- Sell thresholds of the trading configuration. -/
structure SellConfig where
  stopLoss : Option ℚ
  minProfitToSell : Option ℚ
deriving Repr, DecidableEq

/-- Trading configuration together with the sector map. -/
structure TradingConfig where
  buyAmount : ℚ
  maxHoldings : ℕ
  sell : SellConfig
  safety : Option SafetyConfig
  sectorMap : List (String × String)
deriving Repr, DecidableEq

/-- Cooldown registry: soldStocks as an association of instrument code to
the soldAt timestamp (JS object keys are unique; delete removes the key). -/
def CooldownRegistry := List (String × ℚ)
deriving DecidableEq

/-- Portfolio record persisted by the executor. -/
structure Portfolio where
  holdings : List Holding
  lastUpdated : Option ℚ
deriving Repr, DecidableEq

/-- Append-only trade-journal record; optional fields appear only on the
record shapes that carry them in the source. -/
structure TradeRecord where
  type : String
  code : String
  name : String
  quantity : ℤ
  price : ℚ
  amount : ℚ
  avgPrice : Option ℚ
  profit : Option ℚ
  profitRate : Option ℚ
  reason : Option String
  levelId : Option String
  remainingQuantity : Option ℤ
  orderNo : Option String
  timestamp : ℚ
deriving Repr, DecidableEq

/-- Persisted stores the executor reads and writes in one call. -/
structure Store where
  portfolio : Portfolio
  trades : List TradeRecord
  cooldown : CooldownRegistry
deriving DecidableEq

/-- Broker order response; a thrown broker call is modelled by passing
none for the whole response. -/
structure OrderResult where
  success : Bool
  orderNo : String
deriving Repr, DecidableEq

/-- Outcome record returned by the execute functions on success. -/
structure ExecOutcome where
  quantity : ℤ
  price : ℚ
  profitRate : Option ℚ
  profit : Option ℚ
deriving Repr, DecidableEq

namespace TradeExecutor

/-- Result triple of checkCooldown and checkMinHoldingTime. -/
structure CheckResult where
  allowed : Bool
  reason : String
  hoursLeft : Option ℤ
deriving Repr, DecidableEq

/-- Effective cooldown hours: safety.cooldownHours || 24. -/
def effectiveCooldownHours (safety : SafetyConfig) : ℚ :=
  orElse0 safety.cooldownHours 24

/-- checkCooldown(stockCode): allowed when safety is off or no registry
entry exists; a young entry blocks with the remaining whole hours in the
reason; an expired entry is deleted from the registry (lazy cleanup) and
the check passes.  The registry is threaded as state. -/
def checkCooldown (safety : Option SafetyConfig) (now : ℚ) (stockCode : String)
    (reg : CooldownRegistry) : CheckResult × CooldownRegistry :=
  match safety with
  | none => (⟨true, "", none⟩, reg)
  | some s =>
    if !s.enabled then (⟨true, "", none⟩, reg)
    else
      match List.lookup stockCode (reg : List (String × ℚ)) with
      | none => (⟨true, "", none⟩, reg)
      | some soldAt =>
        let hoursPassed := (now - soldAt) / (1000 * 60 * 60)
        let cooldownHours := effectiveCooldownHours s
        if hoursPassed < cooldownHours then
          let hoursLeft := ⌈cooldownHours - hoursPassed⌉
          (⟨false, "쿨다운 중 (" ++ toString hoursLeft ++ "시간 남음)",
            some hoursLeft⟩, reg)
        else
          (⟨true, "", none⟩,
            (reg : List (String × ℚ)).filter (fun e => e.1 ≠ stockCode))

/-- recordCooldown(stockCode): a no-op with safety off, otherwise writes a
fresh soldAt entry for the code (overwriting any previous one). -/
def recordCooldown (safety : Option SafetyConfig) (now : ℚ) (stockCode : String)
    (reg : CooldownRegistry) : CooldownRegistry :=
  match safety with
  | none => reg
  | some s =>
    if !s.enabled then reg
    else (reg : List (String × ℚ)).filter (fun e => e.1 ≠ stockCode) ++ [(stockCode, now)]

/-- checkMinHoldingTime(holding): allowed with safety off or no buyDate;
otherwise the holding must be at least minHoldingHours (|| 2) old. -/
def checkMinHoldingTime (safety : Option SafetyConfig) (now : ℚ)
    (holding : Holding) : CheckResult :=
  match safety with
  | none => ⟨true, "", none⟩
  | some s =>
    if !s.enabled then ⟨true, "", none⟩
    else
      match holding.buyDate with
      | none => ⟨true, "", none⟩
      | some buyTime =>
        let hoursHeld := (now - buyTime) / (1000 * 60 * 60)
        let minHoldingHours := orElse0 s.minHoldingHours 2
        if hoursHeld < minHoldingHours then
          let hoursLeft := ⌈minHoldingHours - hoursHeld⌉
          ⟨false, "최소 보유시간 미충족 (" ++ toString hoursLeft ++ "시간 남음)",
            some hoursLeft⟩
        else ⟨true, "", none⟩

/-- executeBuy(stockCode, currentPrice): guard chain of max holdings,
already-held, sector concentration, cooldown (whose lazy cleanup persists
even when a later guard or the order fails), affordability; then the
broker order.  Only a successful order updates Portfolio and appends a
BUY journal record.  The stock name lookup is a parameter. -/
def executeBuy (cfg : TradingConfig) (now : ℚ) (stockCode stockName : String)
    (currentPrice : ℚ) (orderResult : Option OrderResult) (st : Store) :
    Option ExecOutcome × Store :=
  let portfolio := st.portfolio
  if cfg.maxHoldings ≤ portfolio.holdings.length then (none, st)
  else if portfolio.holdings.any (fun h => h.code = stockCode) then (none, st)
  else
    let maxPerSector := orElse0N (cfg.safety.bind SafetyConfig.maxPerSector) 2
    let sectorBlocked : Bool :=
      match List.lookup stockCode cfg.sectorMap with
      | none => false
      | some stockSector =>
        decide (maxPerSector ≤ (portfolio.holdings.filter
          (fun h => List.lookup h.code cfg.sectorMap = some stockSector)).length)
    if sectorBlocked then (none, st)
    else
      let cc := checkCooldown cfg.safety now stockCode st.cooldown
      let st := { st with cooldown := cc.2 }
      if !cc.1.allowed then (none, st)
      else
        let quantity := ⌊cfg.buyAmount / currentPrice⌋
        if quantity < 1 then (none, st)
        else
          match orderResult with
          | none => (none, st)
          | some result =>
            if result.success then
              let holding : Holding :=
                { code := stockCode, name := stockName, quantity := quantity
                  avgPrice := currentPrice, buyDate := some now
                  orderNo := some result.orderNo, highestPrice := none
                  partialSells := none }
              let portfolio :=
                { holdings := portfolio.holdings ++ [holding]
                  lastUpdated := some now }
              let trade : TradeRecord :=
                { type := "BUY", code := stockCode, name := stockName
                  quantity := quantity, price := currentPrice
                  amount := quantity * currentPrice, avgPrice := none
                  profit := none, profitRate := none, reason := none
                  levelId := none, remainingQuantity := none
                  orderNo := some result.orderNo, timestamp := now }
              (some ⟨quantity, currentPrice, none, none⟩,
                { st with portfolio := portfolio, trades := st.trades ++ [trade] })
            else (none, st)

/-- executeSell(stockCode, quantity, currentPrice, reason): requires the
holding; outside the stop-loss path a marginal profit below
minProfitToSell (|| 0.03) or an unmet minimum holding time blocks; a
successful order removes the holding, records the cooldown entry and
appends a SELL journal record.  The profit-rate percentage is kept to two
decimals (toFixed(2) of the source, modelled as round half up). -/
def executeSell (cfg : TradingConfig) (now : ℚ) (stockCode : String)
    (quantity : ℤ) (currentPrice : ℚ) (reason : String)
    (orderResult : Option OrderResult) (st : Store) :
    Option ExecOutcome × Store :=
  let portfolio := st.portfolio
  match portfolio.holdings.find? (fun h => h.code = stockCode) with
  | none => (none, st)
  | some holding =>
    let profitRate := (currentPrice - holding.avgPrice) / holding.avgPrice
    let isStopLoss := profitRate ≤ orElse0 (cfg.sell.stopLoss) (-(5/100))
    let blocked :=
      if isStopLoss then false
      else
        let minProfitToSell := orElse0 cfg.sell.minProfitToSell (3/100)
        if 0 < profitRate ∧ profitRate < minProfitToSell then true
        else !(checkMinHoldingTime cfg.safety now holding).allowed
    if blocked then (none, st)
    else
      match orderResult with
      | none => (none, st)
      | some result =>
        if result.success then
          let profitRateCalc := jround2 (profitRate * 100)
          let profit := (currentPrice - holding.avgPrice) * quantity
          let portfolio :=
            { holdings := portfolio.holdings.filter (fun h => h.code ≠ stockCode)
              lastUpdated := some now }
          let cooldown := recordCooldown cfg.safety now stockCode st.cooldown
          let trade : TradeRecord :=
            { type := "SELL", code := stockCode, name := holding.name
              quantity := quantity, price := currentPrice
              amount := quantity * currentPrice, avgPrice := some holding.avgPrice
              profit := some profit, profitRate := some profitRateCalc
              reason := some reason, levelId := none, remainingQuantity := none
              orderNo := some result.orderNo, timestamp := now }
          (some ⟨quantity, currentPrice, some profitRateCalc, some profit⟩,
            { portfolio := portfolio, trades := st.trades ++ [trade]
              cooldown := cooldown })
        else (none, st)

/-- executePartialSell(stockCode, quantity, currentPrice, reason, levelId):
requires the holding; the sell quantity is capped at the held quantity; a
successful order appends the level id to partialSells, decrements the
quantity (removing the holding at zero) and appends a PARTIAL_SELL journal
record.  No cooldown entry is written on this path. -/
def executePartialSell (now : ℚ) (stockCode : String)
    (quantity : ℤ) (currentPrice : ℚ) (reason levelId : String)
    (orderResult : Option OrderResult) (st : Store) :
    Option ExecOutcome × Store :=
  let portfolio := st.portfolio
  match portfolio.holdings.find? (fun h => h.code = stockCode) with
  | none => (none, st)
  | some holding =>
    let sellQuantity := min quantity holding.quantity
    match orderResult with
    | none => (none, st)
    | some result =>
      if result.success then
        let profitRateCalc := jround2
          ((currentPrice - holding.avgPrice) / holding.avgPrice * 100)
        let profit := (currentPrice - holding.avgPrice) * sellQuantity
        let newQuantity := holding.quantity - sellQuantity
        let updated : Holding :=
          { holding with
            partialSells := some (holding.partialSells.getD [] ++ [levelId])
            quantity := newQuantity }
        let holdings :=
          if newQuantity ≤ 0 then
            portfolio.holdings.filter (fun h => h.code ≠ stockCode)
          else portfolio.holdings.map
            (fun h => if h.code = stockCode then updated else h)
        let trade : TradeRecord :=
          { type := "PARTIAL_SELL", code := stockCode, name := holding.name
            quantity := sellQuantity, price := currentPrice
            amount := sellQuantity * currentPrice
            avgPrice := some holding.avgPrice, profit := some profit
            profitRate := some profitRateCalc, reason := some reason
            levelId := some levelId, remainingQuantity := some newQuantity
            orderNo := some result.orderNo, timestamp := now }
        (some ⟨sellQuantity, currentPrice, some profitRateCalc, some profit⟩,
          { st with
            portfolio := { holdings := holdings, lastUpdated := some now }
            trades := st.trades ++ [trade] })
      else (none, st)

end TradeExecutor

/-! ## Persistence layer (loadData backup recovery)

A logical file pair: raw primary and backup contents, with JSON.parse
abstracted as a parameter.  loadData returns the parsed value, the file
pair after its side effects, and the quarantined corrupt content when the
primary was renamed aside. -/

/-- Primary and backup contents of one persisted document; none models a
missing file. -/
structure FilePair where
  primary : Option String
  backup : Option String
deriving Repr, DecidableEq

/-- Outcome of loadData: parsed result, resulting files, and the corrupt
primary content when it was renamed to a timestamped quarantine path. -/
structure LoadOutcome (α : Type) where
  result : Option α
  fs : FilePair
  quarantined : Option String
deriving Repr, DecidableEq

namespace TradeExecutor

/-- loadData(filePath): a readable primary that parses is returned as is;
a corrupt primary first tries the backup, and on a valid backup returns
its contents and rewrites the primary from it; otherwise the corrupt
primary is renamed to a quarantine path and null is returned.  A missing
primary returns null without touching the backup. -/
def loadData {α : Type} (parse : String → Option α) (fs : FilePair) :
    LoadOutcome α :=
  match fs.primary with
  | none => ⟨none, fs, none⟩
  | some content =>
    match parse content with
    | some data => ⟨some data, fs, none⟩
    | none =>
      match fs.backup with
      | some backupContent =>
        match parse backupContent with
        | some backupData =>
          ⟨some backupData, { fs with primary := some backupContent }, none⟩
        | none => ⟨none, { fs with primary := none }, some content⟩
      | none => ⟨none, { fs with primary := none }, some content⟩

end TradeExecutor

/-! ## Derived definitions used by the theorem statements -/

namespace ExitManager

/-- Predicate of a due-but-incomplete ladder rung: not in the completed
set and with the unrealized return at or above its threshold. -/
def dueIncomplete (soldLevels : List String) (profitRate : ℚ)
    (level : SellLevel) : Bool :=
  !(soldLevels.contains (levelIdOf level)) && decide (level.profitRate ≤ profitRate)

/-- Next-sell record built from one ladder rung, as the loop builds it. -/
def mkNextSell (avgPrice : ℚ) (totalQuantity : ℤ) (level : SellLevel) : NextSell :=
  { levelId := levelIdOf level
    quantity := max 1 ⌊(totalQuantity : ℚ) * level.sellRatio⌋
    targetPrice := jround (avgPrice * (1 + level.profitRate))
    profitRate := level.profitRate * 100
    reason := "분할 매도 " ++ levelIdOf level ++ " (+" ++
      toString (level.profitRate * 100) ++ "% 도달)" }

end ExitManager

namespace CircuitBreaker

/-- Entry reached from a fresh key by the listed consecutive failures
followed by a final failure at time tN. -/
def afterThresholdFailures (cfg : BreakerConfig) (ts : List ℕ) (tN : ℕ) :
    BreakerEntry :=
  applyFailures cfg (ts ++ [tN]) BreakerEntry.init

end CircuitBreaker

/-- Concrete trading configuration of config.js: buy amount 500000, max
holdings 15, stop loss -2 percent, safety on with 24 cooldown hours and 2
minimum holding hours (no per-sector, per-run or daily caps configured). -/
def configJs : TradingConfig :=
  { buyAmount := 500000, maxHoldings := 15
    sell := { stopLoss := some (-(2/100)), minProfitToSell := none }
    safety := some { enabled := true, cooldownHours := some 24
                     minHoldingHours := some 2, maxPerSector := none
                     maxBuyPerRun := none }
    sectorMap := [("005930", "TECH")] }

/-- BUY journal record with a given timestamp, as executeBuy appends it. -/
def buyRecordAt (ts : ℚ) : TradeRecord :=
  { type := "BUY", code := "005930", name := "삼성전자", quantity := 10
    price := 50000, amount := 500000, avgPrice := none, profit := none
    profitRate := none, reason := none, levelId := none
    remainingQuantity := none, orderNo := some "1", timestamp := ts }

/-- Store whose journal already holds four same-day BUY records (the
daily quota of the overtrade-prevention documentation) with an empty
portfolio and cooldown registry. -/
def storeWithFourBuys : Store :=
  { portfolio := { holdings := [], lastUpdated := none }
    trades := [buyRecordAt 1000, buyRecordAt 2000, buyRecordAt 3000,
               buyRecordAt 4000]
    cooldown := [] }

/-! ## Theorems -/

/-- C8: every embedded indicator function returns its explicit
insufficient-data result (null fields, neutral signal, or an empty
series) whenever the price or candle window is shorter than the declared
minimum period of that indicator, so no value is ever computed over a
short window. -/
theorem insufficient_data_guards (ps : List ℚ) (cs : List Candle)
    (p fast slow sig kp dp : ℕ) :
    (ps.length < p → Indicators.SMA ps p = none) ∧
    (ps.length < p → Indicators.EMA ps p = none) ∧
    (ps.length < p → Indicators.EMAArray ps p = []) ∧
    (ps.length < slow + sig →
      Indicators.MACD ps fast slow sig = Indicators.MACDResult.empty) ∧
    (ps.length < p + 1 → Indicators.RSI ps p = none) ∧
    (cs.length < p + 1 → Indicators.ATR cs p = ⟨none, none⟩) ∧
    (cs.length < kp + dp →
      Indicators.Stochastic cs kp dp = Indicators.StochResult.empty) ∧
    (cs.length < p → Indicators.WilliamsR cs p = ⟨none, "NEUTRAL"⟩) ∧
    (cs.length < p → Indicators.VWAP cs p = ⟨none, none, "NEUTRAL"⟩) ∧
    (ps.length < p → TechnicalAnalyzer.calculateMA ps p = none) ∧
    (ps.length < p + 1 → TechnicalAnalyzer.calculateRSI ps p = none) := by
  refine ⟨?_, ?_, ?_, ?_, ?_, ?_, ?_, ?_, ?_, ?_, ?_⟩ <;> intro h
  · rw [Indicators.SMA, if_pos h]
  · rw [Indicators.EMA, if_pos h]
  · rw [Indicators.EMAArray, if_pos h]
  · rw [Indicators.MACD, if_pos h]
  · rw [Indicators.RSI, if_pos h]
  · rw [Indicators.ATR, if_pos h]
  · rw [Indicators.Stochastic, if_pos h]
  · rw [Indicators.WilliamsR, if_pos h]
  · rw [Indicators.VWAP, if_pos h]
  · rw [TechnicalAnalyzer.calculateMA, if_pos h]
  · rw [TechnicalAnalyzer.calculateRSI, if_pos h]

/-- Witness for C8 at the empty window and the default periods. -/
theorem insufficient_data_guards_witness :
    Indicators.SMA [] 1 = none ∧ Indicators.EMA [] 1 = none ∧
    Indicators.EMAArray [] 1 = [] ∧
    Indicators.MACD [] 12 26 9 = Indicators.MACDResult.empty ∧
    Indicators.RSI [] 1 = none ∧ Indicators.ATR [] 1 = ⟨none, none⟩ ∧
    Indicators.Stochastic [] 14 3 = Indicators.StochResult.empty ∧
    Indicators.WilliamsR [] 1 = ⟨none, "NEUTRAL"⟩ ∧
    Indicators.VWAP [] 1 = ⟨none, none, "NEUTRAL"⟩ ∧
    TechnicalAnalyzer.calculateMA [] 1 = none ∧
    TechnicalAnalyzer.calculateRSI [] 1 = none := by
  obtain ⟨h1, h2, h3, h4, h5, h6, h7, h8, h9, h10, h11⟩ :=
    insufficient_data_guards [] [] 1 12 26 9 14 3
  exact ⟨h1 (by decide), h2 (by decide), h3 (by decide), h4 (by decide),
    h5 (by decide), h6 (by decide), h7 (by decide), h8 (by decide),
    h9 (by decide), h10 (by decide), h11 (by decide)⟩

/-- C9: with a corrupt primary file, a valid backup makes loadData return
the backup contents and rewrite the primary from the backup with nothing
quarantined; only when backup recovery also fails (backup missing or also
corrupt) is the corrupt primary renamed aside and null returned. -/
theorem loadData_backup_recovery {α : Type} (parse : String → Option α)
    (fs : FilePair) (content : String)
    (hp : fs.primary = some content) (hc : parse content = none) :
    (∀ b d, fs.backup = some b → parse b = some d →
      TradeExecutor.loadData parse fs =
        ⟨some d, ⟨some b, fs.backup⟩, none⟩) ∧
    ((∀ b, fs.backup = some b → parse b = none) →
      TradeExecutor.loadData parse fs =
        ⟨none, ⟨none, fs.backup⟩, some content⟩) := by
  constructor
  · intro b d hb hd
    rw [TradeExecutor.loadData, hp]
    simp only [hc, hb, hd]
  · intro hbad
    rw [TradeExecutor.loadData, hp]
    simp only [hc]
    cases hb : fs.backup with
    | none => simp
    | some b => simp [hbad b hb]

/-- Witness for C9: a corrupt primary with a valid backup recovers from
the backup, and with a corrupt backup is quarantined. -/
theorem loadData_backup_recovery_witness :
    TradeExecutor.loadData
      (fun s => if s = "ok" then some 7 else none)
      ⟨some "bad", some "ok"⟩ = ⟨some 7, ⟨some "ok", some "ok"⟩, none⟩ ∧
    TradeExecutor.loadData
      (fun s => if s = "ok" then some 7 else none)
      ⟨some "bad", some "worse"⟩ = ⟨none, ⟨none, some "worse"⟩, some "bad"⟩ := by
  constructor
  · exact (loadData_backup_recovery
      (fun s => if s = "ok" then some 7 else none)
      ⟨some "bad", some "ok"⟩ "bad" rfl (by decide)).1 "ok" 7 rfl (by decide)
  · refine (loadData_backup_recovery
      (fun s => if s = "ok" then some 7 else none)
      ⟨some "bad", some "worse"⟩ "bad" rfl (by decide)).2 ?_
    intro b hb
    cases hb
    decide

/-- Monotonicity of the JS rounding function. -/
theorem jround_mono {x y : ℚ} (h : x ≤ y) : jround x ≤ jround y :=
  Int.floor_le_floor (by linarith)

/-- Shared shape lemma of the createPartialSellPlan loop: the surfaced
nextSell is the first ladder rung that is due and not already sold, once
the accumulator slot is empty, and an occupied slot is preserved. -/
theorem planFold_nextSell (sold : List String) (avg : ℚ) (q : ℤ) (pr : ℚ) :
    ∀ (levels : List SellLevel) (acc : ExitManager.PlanAcc),
      (levels.foldl (ExitManager.planStep sold avg q pr) acc).nextSell =
        if acc.nextSell = none then
          (levels.find? (ExitManager.dueIncomplete sold pr)).map
            (ExitManager.mkNextSell avg q)
        else acc.nextSell := by
  intro levels
  induction levels with
  | nil => intro acc; cases h : acc.nextSell <;> simp [h]
  | cons l ls ih =>
    intro acc
    rw [List.foldl_cons, ih]
    cases h : acc.nextSell with
    | some ns =>
      have hst : (ExitManager.planStep sold avg q pr acc l).nextSell = some ns := by
        simp [ExitManager.planStep, h]
      simp [hst, h]
    | none =>
      by_cases hdue : ExitManager.dueIncomplete sold pr l = true
      · have hcond : ¬(sold.contains (ExitManager.levelIdOf l) = true) ∧
            l.profitRate ≤ pr := by
          simpa [ExitManager.dueIncomplete] using hdue
        have hst : (ExitManager.planStep sold avg q pr acc l).nextSell =
            some (ExitManager.mkNextSell avg q l) := by
          simp only [ExitManager.planStep]
          rw [if_pos ⟨hcond.1, hcond.2, h⟩]
          rfl
        simp [hst, List.find?_cons_of_pos _ hdue]
      · have hcond : ¬(¬(sold.contains (ExitManager.levelIdOf l) = true) ∧
            l.profitRate ≤ pr ∧ acc.nextSell = none) := by
          intro hc
          apply hdue
          simp only [ExitManager.dueIncomplete, Bool.and_eq_true,
            Bool.not_eq_true', decide_eq_true_eq]
          exact ⟨by simpa using hc.1, hc.2.1⟩
        have hst : (ExitManager.planStep sold avg q pr acc l).nextSell = none := by
          simp only [ExitManager.planStep]
          rw [if_neg hcond]
          exact h
        simp [hst, List.find?_cons_of_neg _ (by simpa using hdue)]

/-- C6: for a holding with positive quantity and average price, the plan
surfaces exactly the first ladder rung, in configured order, that is due
(unrealized return at or above its threshold) and not already completed,
with quantity max(1, floor(quantity times sellRatio)) and target price
round(avgPrice times (1 + threshold)). -/
theorem nextSell_first_due_rung (ecfg : ExitConfig) (h : Holding) (price : ℚ)
    (_hq : 0 < h.quantity) (_ha : 0 < h.avgPrice) :
    (ExitManager.createPartialSellPlan ecfg h price).nextSell =
      ((ecfg.partialSellLevels.getD defaultPartialSellLevels).find?
        (ExitManager.dueIncomplete (h.partialSells.getD [])
          ((price - h.avgPrice) / h.avgPrice))).map
        (ExitManager.mkNextSell h.avgPrice h.quantity) := by
  rw [ExitManager.createPartialSellPlan]
  simp only [planFold_nextSell]
  rfl

/-- Witness for C6 at a concrete holding: quantity 10, average 10000,
rung L5 completed, price 11200. -/
theorem nextSell_first_due_rung_witness :
    (0 : ℤ) < 10 ∧ (0 : ℚ) < 10000 ∧
    (ExitManager.createPartialSellPlan ⟨none, none⟩
      { code := "005930", name := "A", quantity := 10, avgPrice := 10000
        buyDate := none, orderNo := none, highestPrice := none
        partialSells := some ["L5"] } 11200).nextSell =
      ((defaultPartialSellLevels).find?
        (ExitManager.dueIncomplete ["L5"] (((11200 : ℚ) - 10000) / 10000))).map
        (ExitManager.mkNextSell 10000 10) := by
  refine ⟨by decide, by norm_num, ?_⟩
  exact nextSell_first_due_rung ⟨none, none⟩
    { code := "005930", name := "A", quantity := 10, avgPrice := 10000
      buyDate := none, orderNo := none, highestPrice := none
      partialSells := some ["L5"] } 11200 (by decide) (by norm_num)

/-- C5: a ladder rung whose level id is already recorded in the holding
partial-sell completion set is never surfaced as nextSell, at any price. -/
theorem nextSell_not_completed (ecfg : ExitConfig) (h : Holding) (price : ℚ)
    (ns : ExitManager.NextSell)
    (hns : (ExitManager.createPartialSellPlan ecfg h price).nextSell = some ns) :
    ns.levelId ∉ h.partialSells.getD [] := by
  rw [ExitManager.createPartialSellPlan] at hns
  simp only [planFold_nextSell] at hns
  rw [if_pos trivial] at hns
  rw [Option.map_eq_some'] at hns
  obtain ⟨lv, hfind, hmk⟩ := hns
  have hp := List.find?_some hfind
  simp only [ExitManager.dueIncomplete, Bool.and_eq_true, Bool.not_eq_true',
    decide_eq_true_eq] at hp
  have hid : ns.levelId = ExitManager.levelIdOf lv := by
    rw [← hmk]; rfl
  rw [hid]
  intro hmem
  have hmemb := List.elem_eq_true_of_mem hmem
  have hfalse : List.elem (ExitManager.levelIdOf lv) (h.partialSells.getD []) = false :=
    hp.1
  rw [hfalse] at hmemb
  exact Bool.false_ne_true hmemb

/-- Witness for C5: with rung L5 completed and price 11200 on average
10000 the plan surfaces L10, which is not in the completed set. -/
theorem nextSell_not_completed_witness :
    (ExitManager.createPartialSellPlan ⟨none, none⟩
      { code := "005930", name := "A", quantity := 10, avgPrice := 10000
        buyDate := none, orderNo := none, highestPrice := none
        partialSells := some ["L5"] } 11200).nextSell =
      some ⟨"L10", 3, 11000, 10, "분할 매도 L10 (+10% 도달)"⟩ ∧
    ("L10" : String) ∉ ["L5"] := by
  have hid5 : ExitManager.levelIdOf ⟨5/100, 3/10⟩ = "L5" := by
    simp only [ExitManager.levelIdOf, jround]
    norm_num
    decide
  have hid10 : ExitManager.levelIdOf ⟨10/100, 3/10⟩ = "L10" := by
    simp only [ExitManager.levelIdOf, jround]
    norm_num
    decide
  have hd5 : ExitManager.dueIncomplete ["L5"] (((11200 : ℚ) - 10000) / 10000)
      ⟨5/100, 3/10⟩ = false := by
    simp [ExitManager.dueIncomplete, hid5]
  have hd10 : ExitManager.dueIncomplete ["L5"] (((11200 : ℚ) - 10000) / 10000)
      ⟨10/100, 3/10⟩ = true := by
    simp only [ExitManager.dueIncomplete, hid10]
    norm_num
    decide
  have heval : (ExitManager.createPartialSellPlan ⟨none, none⟩
      { code := "005930", name := "A", quantity := 10, avgPrice := 10000
        buyDate := none, orderNo := none, highestPrice := none
        partialSells := some ["L5"] } 11200).nextSell =
      some ⟨"L10", 3, 11000, 10, "분할 매도 L10 (+10% 도달)"⟩ := by
    rw [ExitManager.createPartialSellPlan]
    simp only [planFold_nextSell]
    rw [if_pos trivial]
    simp only [defaultPartialSellLevels, Option.getD_none, Option.getD_some]
    rw [List.find?_cons_of_neg _ (by simpa using hd5),
      List.find?_cons_of_pos _ hd10]
    simp only [Option.map_some', Option.some_inj, ExitManager.mkNextSell, hid10,
      ExitManager.NextSell.mk.injEq]
    norm_num [jround]
    decide
  exact ⟨heval, nextSell_not_completed ⟨none, none⟩
    { code := "005930", name := "A", quantity := 10, avgPrice := 10000
      buyDate := none, orderNo := none, highestPrice := none
      partialSells := some ["L5"] } 11200
    ⟨"L10", 3, 11000, 10, "분할 매도 L10 (+10% 도달)"⟩ heval⟩

/-- C4: for a fixed configuration, average price and current price, the
effective stop price of calculateTrailingStop is monotonically
non-decreasing in the recorded high-water price, and equals
max(round(highWater times (1 - trailingPercent)),
round(avgPrice times (1 + minProfit))) with the high-water updated by the
current price. -/
theorem effectiveStopPrice_mono (ecfg : ExitConfig) (h : Holding)
    (price h1 h2 : ℚ) (h1pos : 0 < h1) (h12 : h1 ≤ h2)
    (htp : (ecfg.trailingStop.getD defaultTrailingConfig).trailingPercent ≤ 1) :
    (ExitManager.calculateTrailingStop ecfg { h with highestPrice := some h1 }
        price).effectiveStopPrice ≤
      (ExitManager.calculateTrailingStop ecfg { h with highestPrice := some h2 }
        price).effectiveStopPrice ∧
    (ExitManager.calculateTrailingStop ecfg { h with highestPrice := some h1 }
        price).effectiveStopPrice =
      max (jround (max h1 price *
          (1 - (ecfg.trailingStop.getD defaultTrailingConfig).trailingPercent)))
        (jround (h.avgPrice *
          (1 + (ecfg.trailingStop.getD defaultTrailingConfig).minProfit))) := by
  have h2pos : 0 < h2 := lt_of_lt_of_le h1pos h12
  have hh1 : orElse0 (some h1) (max price h.avgPrice) = h1 := by
    simp [orElse0, ne_of_gt h1pos]
  have hh2 : orElse0 (some h2) (max price h.avgPrice) = h2 := by
    simp [orElse0, ne_of_gt h2pos]
  constructor
  · simp only [ExitManager.calculateTrailingStop, hh1, hh2]
    apply max_le_max _ le_rfl
    apply jround_mono
    apply mul_le_mul_of_nonneg_right
    · exact max_le_max h12 le_rfl
    · linarith
  · simp only [ExitManager.calculateTrailingStop, hh1]

/-- Witness for C4 at the source default configuration: high-water 10000
versus 11000, average 10000, price 10500. -/
theorem effectiveStopPrice_mono_witness :
    (0 : ℚ) < 10000 ∧ (10000 : ℚ) ≤ 11000 ∧
    (ExitManager.calculateTrailingStop ⟨none, none⟩
      { code := "005930", name := "A", quantity := 10, avgPrice := 10000
        buyDate := none, orderNo := none, highestPrice := some 10000
        partialSells := none } 10500).effectiveStopPrice ≤
      (ExitManager.calculateTrailingStop ⟨none, none⟩
        { code := "005930", name := "A", quantity := 10, avgPrice := 10000
          buyDate := none, orderNo := none, highestPrice := some 11000
          partialSells := none } 10500).effectiveStopPrice := by
  refine ⟨by norm_num, by norm_num, ?_⟩
  have := effectiveStopPrice_mono ⟨none, none⟩
    { code := "005930", name := "A", quantity := 10, avgPrice := 10000
      buyDate := none, orderNo := none, highestPrice := some 10000
      partialSells := none } 10500 10000 11000 (by norm_num) (by norm_num)
    (by norm_num [defaultTrailingConfig])
  exact this.1

/-- C1: with the safety system enabled, checkCooldown disallows exactly
when the registry holds an entry for the instrument younger than the
effective cooldown hours; a rejection carries hoursLeft =
ceil(cooldownHours - hoursPassed) and a reason string naming it; a check
that finds an expired entry deletes that entry from the registry and
passes; and a disallowed cooldown check makes executeBuy return null once
the earlier guards pass. -/
theorem checkCooldown_gate (s : SafetyConfig) (now : ℚ) (code : String)
    (reg : CooldownRegistry) (hs : s.enabled = true) :
    ((TradeExecutor.checkCooldown (some s) now code reg).1.allowed = false ↔
      ∃ soldAt, List.lookup code reg = some soldAt ∧
        (now - soldAt) / (1000 * 60 * 60) < TradeExecutor.effectiveCooldownHours s) ∧
    (∀ soldAt, List.lookup code reg = some soldAt →
      (now - soldAt) / (1000 * 60 * 60) < TradeExecutor.effectiveCooldownHours s →
      (TradeExecutor.checkCooldown (some s) now code reg).1.hoursLeft =
        some ⌈TradeExecutor.effectiveCooldownHours s -
          (now - soldAt) / (1000 * 60 * 60)⌉ ∧
      (TradeExecutor.checkCooldown (some s) now code reg).1.reason =
        "쿨다운 중 (" ++ toString ⌈TradeExecutor.effectiveCooldownHours s -
          (now - soldAt) / (1000 * 60 * 60)⌉ ++ "시간 남음)" ∧
      (TradeExecutor.checkCooldown (some s) now code reg).2 = reg) ∧
    (∀ soldAt, List.lookup code reg = some soldAt →
      TradeExecutor.effectiveCooldownHours s ≤ (now - soldAt) / (1000 * 60 * 60) →
      (TradeExecutor.checkCooldown (some s) now code reg).1.allowed = true ∧
      (TradeExecutor.checkCooldown (some s) now code reg).2 =
        List.filter (fun e => e.1 ≠ code) reg) ∧
    (∀ (cfg : TradingConfig) (st : Store) (name : String) (price : ℚ)
        (order : Option OrderResult),
      cfg.safety = some s → st.cooldown = reg →
      st.portfolio.holdings.length < cfg.maxHoldings →
      st.portfolio.holdings.any (fun h => h.code = code) = false →
      List.lookup code cfg.sectorMap = none →
      (TradeExecutor.checkCooldown (some s) now code reg).1.allowed = false →
      (TradeExecutor.executeBuy cfg now code name price order st).1 = none) := by
  refine ⟨?_, ?_, ?_, ?_⟩
  · constructor
    · intro hfalse
      cases hl : List.lookup code reg with
      | none =>
        rw [TradeExecutor.checkCooldown] at hfalse
        simp [hs, hl] at hfalse
      | some soldAt =>
        refine ⟨soldAt, rfl, ?_⟩
        by_contra hge
        rw [TradeExecutor.checkCooldown] at hfalse
        simp [hs, hl, if_neg hge] at hfalse
    · rintro ⟨soldAt, hl, hlt⟩
      rw [TradeExecutor.checkCooldown]
      simp [hs, hl, if_pos hlt]
  · intro soldAt hl hlt
    rw [TradeExecutor.checkCooldown]
    simp [hs, hl, if_pos hlt]
  · intro soldAt hl hge
    rw [TradeExecutor.checkCooldown]
    simp [hs, hl, if_neg (not_lt.mpr hge)]
  · intro cfg st name price order hcfg hreg hlen hany hsec hcc
    rw [TradeExecutor.executeBuy]
    rw [if_neg (not_le.mpr hlen)]
    rw [if_neg (by simp [hany])]
    simp only [hsec, hcfg, hreg]
    rw [if_neg (by simp)]
    rw [if_pos (by simp [hcc])]

/-- Witness for C1: an entry sold at time 0 checked 10 hours later is
blocked with 14 hours left; checked 25 hours later it passes and the
entry is deleted; and the blocked check makes executeBuy return null. -/
theorem checkCooldown_gate_witness :
    (TradeExecutor.checkCooldown (some ⟨true, some 24, some 2, none, none⟩)
      36000000 "005930" [("005930", 0)]).1.allowed = false ∧
    (TradeExecutor.checkCooldown (some ⟨true, some 24, some 2, none, none⟩)
      36000000 "005930" [("005930", 0)]).1.hoursLeft = some 14 ∧
    (TradeExecutor.checkCooldown (some ⟨true, some 24, some 2, none, none⟩)
      90000000 "005930" [("005930", 0)]).1.allowed = true ∧
    (TradeExecutor.checkCooldown (some ⟨true, some 24, some 2, none, none⟩)
      90000000 "005930" [("005930", 0)]).2 = [] ∧
    (TradeExecutor.executeBuy
      ⟨500000, 15, ⟨none, none⟩, some ⟨true, some 24, some 2, none, none⟩, []⟩
      36000000 "005930" "삼성전자" 50000 none
      ⟨⟨[], none⟩, [], [("005930", 0)]⟩).1 = none := by
  have h := checkCooldown_gate ⟨true, some 24, some 2, none, none⟩
    36000000 "005930" [("005930", 0)] rfl
  have h2 := checkCooldown_gate ⟨true, some 24, some 2, none, none⟩
    90000000 "005930" [("005930", 0)] rfl
  have hch : TradeExecutor.effectiveCooldownHours
      ⟨true, some 24, some 2, none, none⟩ = 24 := by
    norm_num [TradeExecutor.effectiveCooldownHours, orElse0]
  have hlook : List.lookup "005930" [("005930", (0 : ℚ))] = some 0 := rfl
  have hyoung : ((36000000 : ℚ) - 0) / (1000 * 60 * 60) <
      TradeExecutor.effectiveCooldownHours ⟨true, some 24, some 2, none, none⟩ := by
    rw [hch]; norm_num
  have hexp : TradeExecutor.effectiveCooldownHours
      ⟨true, some 24, some 2, none, none⟩ ≤
      ((90000000 : ℚ) - 0) / (1000 * 60 * 60) := by
    rw [hch]; norm_num
  have hblocked := h.1.mpr ⟨0, hlook, hyoung⟩
  refine ⟨hblocked, ?_, (h2.2.2.1 0 hlook hexp).1, ?_, ?_⟩
  · have := (h.2.1 0 hlook hyoung).1
    rw [this, hch]
    norm_num
  · have := (h2.2.2.1 0 hlook hexp).2
    rw [this]
    decide
  · exact h.2.2.2 _ _ "삼성전자" 50000 none rfl rfl (by decide) (by decide) rfl
      hblocked

/-- Helper: executeBuy with a failed or thrown broker order returns null
and leaves every store component except the cooldown registry (lazy
cleanup) unchanged. -/
theorem executeBuy_fail (cfg : TradingConfig) (now : ℚ) (code name : String)
    (price : ℚ) (order : Option OrderResult) (st : Store)
    (hfail : ∀ r, order = some r → r.success = false) :
    ∃ reg2, TradeExecutor.executeBuy cfg now code name price order st =
      (none, { st with cooldown := reg2 }) := by
  cases order with
  | none =>
    simp only [TradeExecutor.executeBuy]
    split_ifs <;> exact ⟨_, rfl⟩
  | some r =>
    have hr := hfail r rfl
    simp only [TradeExecutor.executeBuy, hr]
    split_ifs <;> first | exact ⟨_, rfl⟩ | exact absurd ‹False› id

/-- Helper: executeSell with a failed or thrown broker order returns null
and leaves the whole store unchanged. -/
theorem executeSell_fail (cfg : TradingConfig) (now : ℚ) (code : String)
    (qty : ℤ) (price : ℚ) (reason : String) (order : Option OrderResult)
    (st : Store) (hfail : ∀ r, order = some r → r.success = false) :
    TradeExecutor.executeSell cfg now code qty price reason order st =
      (none, st) := by
  cases hfind : st.portfolio.holdings.find? (fun h => h.code = code) with
  | none => simp only [TradeExecutor.executeSell, hfind]
  | some holding =>
    cases order with
    | none =>
      simp only [TradeExecutor.executeSell, hfind]
      split_ifs <;> rfl
    | some r =>
      have hr := hfail r rfl
      simp only [TradeExecutor.executeSell, hfind, hr]
      split_ifs <;> first | rfl | exact absurd ‹False› id

/-- Helper: executePartialSell with a failed or thrown broker order
returns null and leaves the whole store unchanged. -/
theorem executePartialSell_fail (now : ℚ) (code : String) (qty : ℤ)
    (price : ℚ) (reason lvId : String) (order : Option OrderResult)
    (st : Store) (hfail : ∀ r, order = some r → r.success = false) :
    TradeExecutor.executePartialSell now code qty price reason lvId order st =
      (none, st) := by
  cases hfind : st.portfolio.holdings.find? (fun h => h.code = code) with
  | none => simp only [TradeExecutor.executePartialSell, hfind]
  | some holding =>
    cases order with
    | none => simp only [TradeExecutor.executePartialSell, hfind]
    | some r =>
      have hr := hfail r rfl
      simp only [TradeExecutor.executePartialSell, hfind, hr]
      split_ifs <;> first | rfl | exact absurd ‹False› id

/-- C10: whenever the broker order does not report success (a falsy
success flag) or the broker call throws (no response), each of
executeBuy, executeSell and executePartialSell returns null and the
persisted Portfolio and TradeJournal are unchanged: no holding is added,
removed or mutated and no journal record is appended. -/
theorem execute_failure_no_mutation (cfg : TradingConfig) (now : ℚ)
    (code name reason lvId : String) (qty : ℤ) (price : ℚ)
    (order : Option OrderResult) (st : Store)
    (hfail : ∀ r, order = some r → r.success = false) :
    ((TradeExecutor.executeBuy cfg now code name price order st).1 = none ∧
      (TradeExecutor.executeBuy cfg now code name price order st).2.portfolio =
        st.portfolio ∧
      (TradeExecutor.executeBuy cfg now code name price order st).2.trades =
        st.trades) ∧
    (TradeExecutor.executeSell cfg now code qty price reason order st =
      (none, st)) ∧
    (TradeExecutor.executePartialSell now code qty price reason lvId order st =
      (none, st)) := by
  obtain ⟨reg2, hbuy⟩ := executeBuy_fail cfg now code name price order st hfail
  exact ⟨⟨by rw [hbuy], by rw [hbuy], by rw [hbuy]⟩,
    executeSell_fail cfg now code qty price reason order st hfail,
    executePartialSell_fail now code qty price reason lvId order st hfail⟩

/-- Witness for C10: a thrown broker call on the config.js configuration
with an empty store changes nothing. -/
theorem execute_failure_no_mutation_witness :
    (∀ r, (none : Option OrderResult) = some r → r.success = false) ∧
    (TradeExecutor.executeBuy configJs 1000 "000660" "SK하이닉스" 50000 none
      ⟨⟨[], none⟩, [], []⟩).1 = none ∧
    TradeExecutor.executeSell configJs 1000 "000660" 1 50000 "" none
      ⟨⟨[], none⟩, [], []⟩ = (none, ⟨⟨[], none⟩, [], []⟩) ∧
    TradeExecutor.executePartialSell 1000 "000660" 1 50000 "" "L5" none
      ⟨⟨[], none⟩, [], []⟩ = (none, ⟨⟨[], none⟩, [], []⟩) := by
  have h := execute_failure_no_mutation configJs 1000 "000660" "SK하이닉스"
    "" "L5" 1 50000 none ⟨⟨[], none⟩, [], []⟩ (fun r hr => by cases hr)
  refine ⟨?_, h.1.1, h.2.1, h.2.2⟩
  intro r hr
  cases hr

/-- C3: the executeBuy decision never reads the trade journal: its result
is identical under any two journal contents, so no per-day buy quota
derived from journal replay is enforced; concretely, on the config.js
configuration with four same-day BUY records already journaled (the
documented daily quota), a fifth buy is still submitted and succeeds. -/
theorem executeBuy_ignores_journal :
    (∀ (cfg : TradingConfig) (now : ℚ) (code name : String) (price : ℚ)
      (order : Option OrderResult) (p : Portfolio) (reg : CooldownRegistry)
      (tr1 tr2 : List TradeRecord),
      (TradeExecutor.executeBuy cfg now code name price order ⟨p, tr1, reg⟩).1 =
        (TradeExecutor.executeBuy cfg now code name price order ⟨p, tr2, reg⟩).1) ∧
    (storeWithFourBuys.trades.filter (fun t => t.type = "BUY")).length = 4 ∧
    (TradeExecutor.executeBuy configJs 5000 "005930" "삼성전자" 50000
      (some ⟨true, "1"⟩) storeWithFourBuys).1 = some ⟨10, 50000, none, none⟩ ∧
    ((TradeExecutor.executeBuy configJs 5000 "005930" "삼성전자" 50000
      (some ⟨true, "1"⟩) storeWithFourBuys).2.trades).length = 5 := by
  refine ⟨?_, ?_, ?_, ?_⟩
  · intro cfg now code name price order p reg tr1 tr2
    cases order with
    | none =>
      simp only [TradeExecutor.executeBuy]
      split_ifs <;> rfl
    | some r =>
      simp only [TradeExecutor.executeBuy]
      split_ifs <;> rfl
  · decide
  · simp only [TradeExecutor.executeBuy, configJs, storeWithFourBuys,
      TradeExecutor.checkCooldown, TradeExecutor.effectiveCooldownHours,
      orElse0, orElse0N]
    norm_num
  · simp only [TradeExecutor.executeBuy, configJs, storeWithFourBuys,
      TradeExecutor.checkCooldown, TradeExecutor.effectiveCooldownHours,
      orElse0, orElse0N]
    norm_num [buyRecordAt]

/-- Helper: consecutive failures below the threshold only count up, with
no open-until timestamp set. -/
theorem applyFailures_below (cfg : BreakerConfig) :
    ∀ (ts : List ℕ) (k : ℕ), k + ts.length < cfg.failureThreshold →
      CircuitBreaker.applyFailures cfg ts ⟨k, 0, 0⟩ = ⟨k + ts.length, 0, 0⟩ := by
  intro ts
  induction ts with
  | nil => intro k _; simp [CircuitBreaker.applyFailures]
  | cons t ts ih =>
    intro k hk
    rw [CircuitBreaker.applyFailures, List.foldl_cons]
    have hfail : CircuitBreaker.failure cfg t ⟨k, 0, 0⟩ = ⟨k + 1, 0, 0⟩ := by
      rw [CircuitBreaker.failure]
      rw [if_neg (by simp at hk ⊢; omega)]
    rw [hfail]
    have hrec := ih (k + 1) (by simp at hk ⊢; omega)
    rw [CircuitBreaker.applyFailures] at hrec
    rw [hrec]
    congr 1
    simp
    omega

/-- Helper: exactly failureThreshold consecutive failures from a fresh
entry leave fails at the threshold and open the breaker until the last
failure time plus the cooldown. -/
theorem afterThresholdFailures_eq (cfg : BreakerConfig) (ts : List ℕ) (tN : ℕ)
    (hthr : ts.length + 1 = cfg.failureThreshold) :
    CircuitBreaker.afterThresholdFailures cfg ts tN =
      ⟨cfg.failureThreshold, tN + cfg.cooldownMs, 0⟩ := by
  rw [CircuitBreaker.afterThresholdFailures, CircuitBreaker.applyFailures,
    List.foldl_append]
  have h1 := applyFailures_below cfg ts 0 (by omega)
  rw [CircuitBreaker.applyFailures] at h1
  have hinit : BreakerEntry.init = (⟨0, 0, 0⟩ : BreakerEntry) := rfl
  rw [hinit, h1]
  simp only [List.foldl_cons, List.foldl_nil]
  rw [CircuitBreaker.failure]
  rw [if_pos (by simp; omega)]
  simp
  omega

/-- Helper: canRequest leaves the failure count and the open-until
timestamp unchanged. -/
theorem canRequest_preserves (cfg : BreakerConfig) (now : ℕ) (s : BreakerEntry) :
    (CircuitBreaker.canRequest cfg now s).2.fails = s.fails ∧
    (CircuitBreaker.canRequest cfg now s).2.openUntil = s.openUntil := by
  rw [CircuitBreaker.canRequest]
  split_ifs <;> simp

/-- Helper: iterated canRequest leaves the failure count and the
open-until timestamp unchanged. -/
theorem canRequestIter_preserves (cfg : BreakerConfig) (now : ℕ) :
    ∀ (n : ℕ) (s : BreakerEntry),
      (CircuitBreaker.canRequestIter cfg now n s).fails = s.fails ∧
      (CircuitBreaker.canRequestIter cfg now n s).openUntil = s.openUntil := by
  intro n
  induction n with
  | zero => intro s; exact ⟨rfl, rfl⟩
  | succ n ih =>
    intro s
    rw [CircuitBreaker.canRequestIter]
    have h1 := canRequest_preserves cfg now s
    have h2 := ih (CircuitBreaker.canRequest cfg now s).2
    exact ⟨h2.1.trans h1.1, h2.2.trans h1.2⟩

/-- Helper: in the elapsed half-open window the number of granted
requests among n successive canRequest calls is capped at the remaining
trial budget. -/
theorem grants_halfOpen (cfg : BreakerConfig) (now : ℕ) :
    ∀ (n : ℕ) (s : BreakerEntry), s.openUntil ≠ 0 → s.openUntil ≤ now →
      CircuitBreaker.grants cfg now n s =
        min n (cfg.halfOpenMax - s.halfOpenTrials) := by
  intro n
  induction n with
  | zero => intro s _ _; simp [CircuitBreaker.grants]
  | succ n ih =>
    intro s h0 hle
    rw [CircuitBreaker.grants]
    rw [CircuitBreaker.canRequest]
    rw [if_neg (not_lt.mpr hle), if_pos h0]
    by_cases hmax : cfg.halfOpenMax ≤ s.halfOpenTrials
    · rw [if_pos hmax]
      dsimp only
      rw [ih s h0 hle, if_neg Bool.false_ne_true]
      omega
    · rw [if_neg hmax]
      dsimp only
      rw [ih ({ s with halfOpenTrials := s.halfOpenTrials + 1 }) h0 hle]
      dsimp only
      rw [if_pos rfl]
      omega

/-- Helper: a failure reported at or above the threshold reopens the
breaker until the failure time plus the cooldown. -/
theorem failure_reopens (cfg : BreakerConfig) (t now2 : ℕ) (s : BreakerEntry)
    (h : cfg.failureThreshold ≤ s.fails) (hn : now2 < t + cfg.cooldownMs) :
    CircuitBreaker.getState cfg now2 (CircuitBreaker.failure cfg t s) =
      .OPEN := by
  rw [CircuitBreaker.failure, if_pos (by omega)]
  rw [CircuitBreaker.getState]
  rw [if_neg (by simp; omega), if_pos (by simpa)]

/-- Helper: a success resets to the closed state. -/
theorem success_closes (cfg : BreakerConfig) (now2 : ℕ) (s : BreakerEntry)
    (h : 0 < cfg.failureThreshold) :
    CircuitBreaker.getState cfg now2 (CircuitBreaker.success s) = .CLOSED := by
  rw [CircuitBreaker.success, CircuitBreaker.getState]
  rw [if_pos (by simpa [BreakerEntry.init])]

/-- C2: after failureThreshold consecutive failure calls from a fresh
key, canRequest returns false until cooldownMs has elapsed since the
threshold-crossing failure; once elapsed, exactly halfOpenMax trial
requests are granted among any longer run of canRequest calls; a trial
failure returns the breaker to OPEN for a fresh cooldown and a trial
success returns it to CLOSED. -/
theorem breaker_lifecycle (cfg : BreakerConfig) (ts : List ℕ) (tN : ℕ)
    (hthr : ts.length + 1 = cfg.failureThreshold) (hcd : 0 < cfg.cooldownMs) :
    (CircuitBreaker.afterThresholdFailures cfg ts tN =
      ⟨cfg.failureThreshold, tN + cfg.cooldownMs, 0⟩) ∧
    (∀ now, now < tN + cfg.cooldownMs →
      (CircuitBreaker.canRequest cfg now
        (CircuitBreaker.afterThresholdFailures cfg ts tN)).1 = false) ∧
    (∀ now n, tN + cfg.cooldownMs ≤ now →
      CircuitBreaker.grants cfg now n
        (CircuitBreaker.afterThresholdFailures cfg ts tN) =
        min n cfg.halfOpenMax) ∧
    (∀ now j t2 now2, now2 < t2 + cfg.cooldownMs →
      CircuitBreaker.getState cfg now2 (CircuitBreaker.failure cfg t2
        (CircuitBreaker.canRequestIter cfg now j
          (CircuitBreaker.afterThresholdFailures cfg ts tN))) = .OPEN) ∧
    (∀ now j now2,
      CircuitBreaker.getState cfg now2 (CircuitBreaker.success
        (CircuitBreaker.canRequestIter cfg now j
          (CircuitBreaker.afterThresholdFailures cfg ts tN))) = .CLOSED) := by
  have heq := afterThresholdFailures_eq cfg ts tN hthr
  refine ⟨heq, ?_, ?_, ?_, ?_⟩
  · intro now hnow
    rw [heq, CircuitBreaker.canRequest]
    rw [if_pos (by simpa)]
  · intro now n hnow
    rw [heq, grants_halfOpen cfg now n ⟨cfg.failureThreshold,
      tN + cfg.cooldownMs, 0⟩ (by simp; omega) (by simpa)]
    simp
  · intro now j t2 now2 hn
    apply failure_reopens cfg t2 now2 _ _ hn
    have hp := (canRequestIter_preserves cfg now j
      (CircuitBreaker.afterThresholdFailures cfg ts tN)).1
    rw [hp, heq]
  · intro now j now2
    exact success_closes cfg now2 _ (by omega)

/-- Witness for C2 at the source defaults: threshold 5, cooldown 30000,
one half-open trial, with failures at times 1..5. -/
theorem breaker_lifecycle_witness :
    CircuitBreaker.afterThresholdFailures ⟨5, 30000, 1⟩ [1, 2, 3, 4] 5 =
      ⟨5, 30005, 0⟩ ∧
    (CircuitBreaker.canRequest ⟨5, 30000, 1⟩ 30004
      (CircuitBreaker.afterThresholdFailures ⟨5, 30000, 1⟩ [1, 2, 3, 4] 5)).1 =
      false ∧
    CircuitBreaker.grants ⟨5, 30000, 1⟩ 30005 3
      (CircuitBreaker.afterThresholdFailures ⟨5, 30000, 1⟩ [1, 2, 3, 4] 5) =
      min 3 1 ∧
    CircuitBreaker.getState ⟨5, 30000, 1⟩ 30010
      (CircuitBreaker.failure ⟨5, 30000, 1⟩ 30006
        (CircuitBreaker.canRequestIter ⟨5, 30000, 1⟩ 30005 1
          (CircuitBreaker.afterThresholdFailures ⟨5, 30000, 1⟩ [1, 2, 3, 4] 5))) =
      .OPEN ∧
    CircuitBreaker.getState ⟨5, 30000, 1⟩ 30010
      (CircuitBreaker.success
        (CircuitBreaker.canRequestIter ⟨5, 30000, 1⟩ 30005 1
          (CircuitBreaker.afterThresholdFailures ⟨5, 30000, 1⟩ [1, 2, 3, 4] 5))) =
      .CLOSED := by
  have h := breaker_lifecycle ⟨5, 30000, 1⟩ [1, 2, 3, 4] 5 (by decide) (by decide)
  exact ⟨h.1, h.2.1 30004 (by decide), h.2.2.1 30005 3 (by decide),
    h.2.2.2.1 30005 1 30006 30010 (by decide), h.2.2.2.2 30005 1 30010⟩

/-- Helper: the gains and losses accumulated by the RSI fold are
nonnegative from a nonnegative start. -/
theorem gainsLosses_foldl_nonneg (changes : List ℚ) :
    ∀ (p : ℚ × ℚ), 0 ≤ p.1 → 0 ≤ p.2 →
      0 ≤ (changes.foldl
        (fun gl c => if c > 0 then (gl.1 + c, gl.2) else (gl.1, gl.2 + |c|)) p).1 ∧
      0 ≤ (changes.foldl
        (fun gl c => if c > 0 then (gl.1 + c, gl.2) else (gl.1, gl.2 + |c|)) p).2 := by
  induction changes with
  | nil => intro p h1 h2; exact ⟨h1, h2⟩
  | cons c cs ih =>
    intro p h1 h2
    rw [List.foldl_cons]
    by_cases hc : c > 0
    · rw [if_pos hc]
      exact ih _ (by dsimp only; linarith) (by dsimp only; linarith)
    · rw [if_neg hc]
      exact ih _ (by dsimp only; linarith)
        (by dsimp only; have := abs_nonneg c; linarith)

/-- Helper: with no strictly negative change the loss accumulator of the
RSI fold never grows. -/
theorem gainsLosses_foldl_noloss (changes : List ℚ)
    (h : ∀ c ∈ changes, 0 ≤ c) :
    ∀ (p : ℚ × ℚ),
      (changes.foldl
        (fun gl c => if c > 0 then (gl.1 + c, gl.2) else (gl.1, gl.2 + |c|)) p).2 =
        p.2 := by
  induction changes with
  | nil => intro p; rfl
  | cons c cs ih =>
    intro p
    rw [List.foldl_cons]
    have hc0 : 0 ≤ c := h c (List.mem_cons_self c cs)
    have hrest : ∀ c ∈ cs, 0 ≤ c := fun x hx => h x (List.mem_cons_of_mem c hx)
    by_cases hc : c > 0
    · rw [if_pos hc]
      exact ih hrest _
    · rw [if_neg hc]
      have hceq : c = 0 := le_antisymm (not_lt.mp hc) hc0
      rw [ih hrest _]
      dsimp only
      rw [hceq, abs_zero, add_zero]

/-- C7 (amended): for every price list long enough (length at least
period + 1, positive period) the returned RSI lies in [0, 100] in both
implementations, and equals 100 whenever no strictly negative price
change occurs in the window; the converse direction of the original claim
fails by rounding (see the counterexample). -/
theorem rsi_range_and_no_loss (prices : List ℚ) (period : ℕ)
    (hp : 0 < period) (hl : period + 1 ≤ prices.length) :
    ∃ r, TechnicalAnalyzer.calculateRSI prices period = some r ∧
      Indicators.RSI prices period = some r ∧ 0 ≤ r ∧ r ≤ 100 ∧
      ((∀ c ∈ (Indicators.priceChanges prices).drop
          ((Indicators.priceChanges prices).length - period), 0 ≤ c) →
        r = 100) := by
  have hsame : TechnicalAnalyzer.calculateRSI prices period =
      Indicators.RSI prices period := rfl
  rw [hsame, Indicators.RSI, if_neg (not_lt.mpr hl)]
  dsimp only
  set recent := (Indicators.priceChanges prices).drop
    ((Indicators.priceChanges prices).length - period) with hrec
  set gl := Indicators.gainsLosses recent with hgl
  have hnn := gainsLosses_foldl_nonneg recent (0, 0) le_rfl le_rfl
  rw [← Indicators.gainsLosses, ← hgl] at hnn
  by_cases hz : gl.2 / (period : ℚ) = 0
  · rw [if_pos hz]
    exact ⟨100, rfl, rfl, by norm_num, by norm_num, fun _ => rfl⟩
  · rw [if_neg hz]
    have hper : (0 : ℚ) < (period : ℚ) := by positivity
    have hLpos : 0 < gl.2 / (period : ℚ) :=
      lt_of_le_of_ne (div_nonneg hnn.2 (le_of_lt hper)) (Ne.symm hz)
    have hrs : 0 ≤ gl.1 / (period : ℚ) / (gl.2 / (period : ℚ)) :=
      div_nonneg (div_nonneg hnn.1 (le_of_lt hper)) (le_of_lt hLpos)
    set rs := gl.1 / (period : ℚ) / (gl.2 / (period : ℚ)) with hrsdef
    have hx0 : 0 ≤ 100 - 100 / (1 + rs) := by
      have : 100 / (1 + rs) ≤ 100 := by
        apply div_le_self (by norm_num)
        linarith
      linarith
    have hx100 : 100 - 100 / (1 + rs) < 100 := by
      have : 0 < 100 / (1 + rs) := by positivity
      linarith
    refine ⟨jround2 (100 - 100 / (1 + rs)), rfl, rfl, ?_, ?_, ?_⟩
    · rw [jround2, jround]
      have hfl : (0 : ℤ) ≤ ⌊(100 - 100 / (1 + rs)) * 100 + 1/2⌋ := by
        apply Int.le_floor.mpr
        push_cast
        nlinarith
      apply div_nonneg _ (by norm_num : (0:ℚ) ≤ 100)
      exact_mod_cast hfl
    · rw [jround2, jround]
      have hfl2 : ⌊(100 - 100 / (1 + rs)) * 100 + 1/2⌋ ≤ 10000 := by
        have h1 : ⌊(100 - 100 / (1 + rs)) * 100 + 1/2⌋ < 10001 := by
          apply Int.floor_lt.mpr
          push_cast
          nlinarith
        omega
      rw [div_le_iff₀ (by norm_num : (0:ℚ) < 100)]
      calc ((⌊(100 - 100 / (1 + rs)) * 100 + 1/2⌋ : ℤ) : ℚ) ≤ 10000 := by
            exact_mod_cast hfl2
        _ ≤ 100 * 100 := by norm_num
    · intro hall
      exfalso
      apply hz
      have := gainsLosses_foldl_noloss recent hall (0, 0)
      rw [← Indicators.gainsLosses, ← hgl] at this
      rw [this]
      simp

/-- Counterexample for C7 as stated: a window containing the strictly
negative change -1 alongside a gain of 1000000 still returns RSI = 100,
because 100 - 100/(1 + 1000000) rounds to 100.00 at two decimals, so
RSI = 100 does not imply that no losses occurred. -/
theorem rsi_100_despite_loss :
    TechnicalAnalyzer.calculateRSI
      [1, 1000001, 1000000, 1000000, 1000000, 1000000, 1000000, 1000000,
       1000000, 1000000, 1000000, 1000000, 1000000, 1000000, 1000000] 14 =
      some 100 ∧
    Indicators.RSI
      [1, 1000001, 1000000, 1000000, 1000000, 1000000, 1000000, 1000000,
       1000000, 1000000, 1000000, 1000000, 1000000, 1000000, 1000000] 14 =
      some 100 ∧
    (-1 : ℚ) ∈ (Indicators.priceChanges
      [1, 1000001, 1000000, 1000000, 1000000, 1000000, 1000000, 1000000,
       1000000, 1000000, 1000000, 1000000, 1000000, 1000000, 1000000]).drop
      ((Indicators.priceChanges
        [1, 1000001, 1000000, 1000000, 1000000, 1000000, 1000000, 1000000,
         1000000, 1000000, 1000000, 1000000, 1000000, 1000000, 1000000]).length
        - 14) ∧
    (-1 : ℚ) < 0 := by
  have hch : Indicators.priceChanges
      [1, 1000001, 1000000, 1000000, 1000000, 1000000, 1000000, 1000000,
       1000000, 1000000, 1000000, 1000000, 1000000, 1000000, 1000000] =
      [1000000, -1, 0, 0, 0, 0, 0, 0, 0, 0, 0, 0, 0, 0] := by
    norm_num [Indicators.priceChanges]
  have hgl : Indicators.gainsLosses
      [1000000, -1, 0, 0, 0, 0, 0, 0, 0, 0, 0, 0, 0, 0] = (1000000, 1) := by
    norm_num [Indicators.gainsLosses]
  have hrsi : Indicators.RSI
      [1, 1000001, 1000000, 1000000, 1000000, 1000000, 1000000, 1000000,
       1000000, 1000000, 1000000, 1000000, 1000000, 1000000, 1000000] 14 =
      some 100 := by
    rw [Indicators.RSI, if_neg (by norm_num)]
    dsimp only
    rw [hch]
    norm_num [hgl, jround2, jround]
  exact ⟨hrsi, hrsi, by rw [hch]; norm_num, by norm_num⟩

/-- Witness for the amended C7 at a strictly rising 15-price window. -/
theorem rsi_range_and_no_loss_witness :
    0 < 14 ∧ 14 + 1 ≤
      ([1, 2, 3, 4, 5, 6, 7, 8, 9, 10, 11, 12, 13, 14, 15] : List ℚ).length ∧
    ∃ r, TechnicalAnalyzer.calculateRSI
        [1, 2, 3, 4, 5, 6, 7, 8, 9, 10, 11, 12, 13, 14, 15] 14 = some r ∧
      Indicators.RSI [1, 2, 3, 4, 5, 6, 7, 8, 9, 10, 11, 12, 13, 14, 15] 14 =
        some r ∧ 0 ≤ r ∧ r ≤ 100 ∧
      ((∀ c ∈ (Indicators.priceChanges
          [1, 2, 3, 4, 5, 6, 7, 8, 9, 10, 11, 12, 13, 14, 15]).drop
          ((Indicators.priceChanges
            [1, 2, 3, 4, 5, 6, 7, 8, 9, 10, 11, 12, 13, 14, 15]).length - 14),
          0 ≤ c) → r = 100) :=
  ⟨by norm_num, by norm_num,
    rsi_range_and_no_loss [1, 2, 3, 4, 5, 6, 7, 8, 9, 10, 11, 12, 13, 14, 15]
      14 (by norm_num) (by norm_num)⟩
